import Mathlib

/-!
Shallow embedding of the Dashboard Card Layout Engine of `betterusos`
(content script, `setupDashboard` and its helpers), together with proofs of
the specification's claims about it.

Conventions of the embedding:
* JS 32-bit signed integer arithmetic (`| 0`, `<<`) is modelled on `Int`
  with an explicit reduction `toInt32` (reduce mod 2^32, reinterpret as
  signed).
* `charCodeAt` is modelled as the character's code point (`Char.toNat`);
  the two agree on all basic-plane text, in particular on URL paths.
* A card DOM element is modelled by the three pieces of data the engine
  reads from it: its native `id` attribute (the empty string when absent,
  matching JS truthiness of `el.id`), the `href` of its title link
  (`none` when there is no title link), and its display title text.
* JS `Map` / plain-object records are modelled as association lists with
  the same first-key-wins `lookup` semantics.
-/

/-- Reinterpret an integer as a JS 32-bit signed integer (`ToInt32`):
reduce modulo 2^32 into `[0, 2^32)`, then shift the upper half down. -/
def toInt32 (x : Int) : Int :=
  let m := x % 4294967296
  if m < 2147483648 then m else m - 4294967296

/-- One step of the rolling hash in `getFrameId`:
`hash = ((hash << 5) - hash + href.charCodeAt(i)) | 0`.
`hash << 5` truncates to 32 bits before the subtraction; the subtraction
and addition are exact (double precision), and `| 0` truncates again. -/
def hashStep (h : Int) (c : Nat) : Int :=
  toInt32 (toInt32 (h * 32) - h + c)

/-- The full rolling hash of `getFrameId`, folded over the code units of
the href string, starting from `0`. -/
def hashString (s : String) : Int :=
  s.data.foldl (fun h ch => hashStep h ch.toNat) 0

/-- Digit character used by JS `Number.prototype.toString(36)`:
`0`-`9` then lowercase `a`-`z`. -/
def digitChar36 (d : Nat) : Char :=
  if d < 10 then Char.ofNat (48 + d) else Char.ofNat (87 + d)

/-- Fuel-indexed base-36 digit list (most significant first); the fuel
`n + 1` always suffices since the argument shrinks by a factor of 36. -/
def toBase36Aux : Nat → Nat → List Char
  | 0, _ => []
  | fuel + 1, n =>
    if n < 36 then [digitChar36 n]
    else toBase36Aux fuel (n / 36) ++ [digitChar36 (n % 36)]

/-- JS `n.toString(36)` for a natural number. -/
def toBase36 (n : Nat) : String :=
  String.mk (toBase36Aux (n + 1) n)

/-- The data the engine reads from a card DOM element. -/
structure CardElement where
  /-- The element's native `id` attribute; `""` when absent (JS falsy). -/
  nativeId : String
  /-- `getAttribute("href")` of the first `[slot="title"] a` link;
  `none` when there is no such link or no href. -/
  href : Option String
  /-- Display text of the title (varies with the UI language). -/
  titleText : String
deriving DecidableEq, Repr

/-- Embedding of `getFrameId`:
if the element has a (truthy) native id, return it unchanged; otherwise
hash the title link's href (never the display text) with the 32-bit
rolling hash and format `bu-` + `Math.abs(hash).toString(36)`. -/
def getFrameId (frame : CardElement) : String :=
  if frame.nativeId ≠ "" then frame.nativeId
  else "bu-" ++ toBase36 (hashString (frame.href.getD "")).natAbs

/-- The persisted `DashboardState` record
`{ order: string[], hidden: string[], spans?: Record<string, SpanValue> }`.
Spans are an association list (JS object keyed by frame id); the stored
value is an arbitrary number until validated against `SPAN_OPTIONS`. -/
structure DashboardState where
  order : List String
  hidden : List String
  spans : List (String × Nat)
deriving DecidableEq, Repr

/-- `const SPAN_OPTIONS = [2, 3, 4, 6]` — column spans meaning
1/3, 1/2, 2/3 and full row respectively. -/
def SPAN_OPTIONS : List Nat := [2, 3, 4, 6]

/-- `state?.spans ?? {}`. -/
def spansOf (state : Option DashboardState) : List (String × Nat) :=
  match state with
  | some s => s.spans
  | none => []

/-- `new Set(state?.hidden ?? [])`, kept as a list; only membership is used. -/
def hiddenList (state : Option DashboardState) : List String :=
  match state with
  | some s => s.hidden
  | none => []

/-- The stored order, `[]` for a null state (used to state hypotheses). -/
def storedOrderOf (state : Option DashboardState) : List String :=
  match state with
  | some s => s.order
  | none => []

/-- `getSpan` from `setupDashboard`: the stored span if present, truthy and
one of `SPAN_OPTIONS`; otherwise full row for the statistics panel
(`bu-stats-frame`) and half row for every other card. -/
def getSpan (spans : List (String × Nat)) (id : String) : Nat :=
  match spans.lookup id with
  | some s => if s ≠ 0 ∧ s ∈ SPAN_OPTIONS then s
              else if id = "bu-stats-frame" then 6 else 3
  | none => if id = "bu-stats-frame" then 6 else 3

/-- Discovery order of ids: `defaultOrder.push(getFrameId(frame))` for each
discovered frame (stats panel and slot panel first, then native frames). -/
def defaultOrder (frames : List CardElement) : List String :=
  frames.map getFrameId

/-- JS `Map.prototype.set`: overwrite the value at an existing key, keeping
its slot position, else append a new entry at the end. -/
def mapSet (m : List (String × CardElement)) (k : String) (v : CardElement) :
    List (String × CardElement) :=
  match m with
  | [] => [(k, v)]
  | p :: rest => if p.1 = k then (k, v) :: rest else p :: mapSet rest k v

/-- The `idToFrame` registry: `idToFrame.set(getFrameId(frame), frame)` for
each discovered frame in order. A colliding id keeps its slot position but
its value is overwritten by each later frame. -/
def idToFrame (frames : List CardElement) : List (String × CardElement) :=
  frames.foldl (fun m f => mapSet m (getFrameId f) f) []

/-- The last discovered element resolving to `id` (the value a repeated
`Map.set` leaves in the registry slot), `none` when no element does. -/
def lastResolved (frames : List CardElement) (id : String) :
    Option CardElement :=
  frames.foldl (fun acc f => if getFrameId f = id then some f else acc) none

/-- `order = state?.order?.filter((id) => idToFrame.has(id)) ?? defaultOrder`.
(`idToFrame.has id` holds exactly when `id` is one of the resolved ids.) -/
def baseOrder (frames : List CardElement) (state : Option DashboardState) :
    List String :=
  match state with
  | some s => s.order.filter (fun id => decide (id ∈ defaultOrder frames))
  | none => defaultOrder frames

/-- `for (const id of defaultOrder) if (!order.includes(id)) order.unshift(id)`. -/
def unshiftNew (dflt : List String) (ord : List String) : List String :=
  dflt.foldl (fun ord id => if id ∈ ord then ord else id :: ord) ord

/-- The merged order of `setupDashboard`: the stored order restricted to
live ids, with every not-yet-present discovered id unshifted to the front. -/
def computeOrder (frames : List CardElement) (state : Option DashboardState) :
    List String :=
  unshiftNew (defaultOrder frames) (baseOrder frames state)

/-- `visibleOrder = order.filter((id) => !hiddenSet.has(id))`. -/
def visibleOrder (frames : List CardElement) (state : Option DashboardState) :
    List String :=
  (computeOrder frames state).filter
    (fun id => !(decide (id ∈ hiddenList state)))

/-- `hiddenOrder = order.filter((id) => hiddenSet.has(id))`. -/
def hiddenOrder (frames : List CardElement) (state : Option DashboardState) :
    List String :=
  (computeOrder frames state).filter (fun id => decide (id ∈ hiddenList state))

/-- The derived `EffectiveLayout`: the visible/hidden partition plus the
resolved width class of every laid-out id (what `applySpan` writes). -/
structure EffectiveLayout where
  visibleOrder : List String
  hiddenOrder : List String
  widths : List (String × Nat)
deriving DecidableEq, Repr

/-- One reconciliation pass of `setupDashboard` on the discovered frames and
the stored state: merge orders, split by the hidden set, resolve spans. -/
def reconcile (frames : List CardElement) (state : Option DashboardState) :
    EffectiveLayout :=
  let vis := visibleOrder frames state
  let hid := hiddenOrder frames state
  { visibleOrder := vis
    hiddenOrder := hid
    widths := (vis ++ hid).map (fun id => (id, getSpan (spansOf state) id)) }

/-- Keep the last occurrence of each element, preserving the order of last
occurrences. This is what the DOM does when the render loop calls
`wrapper.appendChild(idToFrame.get(id))` repeatedly: appending a node that
is already in the wrapper moves it, so a duplicated id ends up at the
position of its last append. -/
def dedupKeepLast (l : List String) : List String :=
  (l.reverse.dedup).reverse

/-- `getCurrentOrder()`: ids of the wrapper's cards in DOM order — the
rendered visible segment followed by the rendered hidden segment (the
divider does not match the card selector). -/
def getCurrentOrder (layout : EffectiveLayout) : List String :=
  dedupKeepLast layout.visibleOrder ++ dedupKeepLast layout.hiddenOrder

/-- `getHiddenIds()`: ids of the wrapper's cards carrying `bu-hidden-card`,
in DOM order — exactly the rendered hidden segment. -/
def getHiddenIds (layout : EffectiveLayout) : List String :=
  dedupKeepLast layout.hiddenOrder

/-- `getSpans()`: for each rendered card, parse back `dataset.buSpan`, which
`applySpan` set to `getSpan(id)`; the `SPAN_OPTIONS.includes` re-check
always passes because `getSpan` only returns members of `SPAN_OPTIONS`. -/
def getSpans (state : Option DashboardState) (layout : EffectiveLayout) :
    List (String × Nat) :=
  (getCurrentOrder layout).map (fun id => (id, getSpan (spansOf state) id))

/-- `persistOrder()`: the `DashboardState` snapshot saved from the live DOM
produced by rendering `reconcile frames state`. -/
def persistState (frames : List CardElement) (state : Option DashboardState) :
    DashboardState :=
  let layout := reconcile frames state
  { order := getCurrentOrder layout
    hidden := getHiddenIds layout
    spans := getSpans state layout }

/-!
### Popup message interface

`dashboardEditState` is null until `setupDashboard` runs on a dashboard
page; edit mode is the `bu-edit-mode` class on the dashboard container,
and exiting edit mode via the toggle message runs `persistOrder()` once.
We model the page-scoped mutable state and the two dashboard messages of
the `chrome.runtime.onMessage` listener.
-/

/-- Page-scoped state relevant to the dashboard edit messages:
whether `dashboardEditState` is non-null, whether the dashboard container
currently has the `bu-edit-mode` class, and how many times `persistOrder`
has run (to count persistence calls). -/
structure PageState where
  hasDashboard : Bool
  editMode : Bool
  persistCount : Nat
deriving DecidableEq, Repr

/-- The shape of `sendResponse` payloads for the two dashboard messages;
a field is `none` when the handler does not include it. -/
structure EditResponse where
  hasDashboard : Option Bool
  active : Option Bool
deriving DecidableEq, Repr

/-- The `TOGGLE_DASHBOARD_EDIT` branch of the message listener: with no
dashboard, respond `{active: false}` and change nothing; otherwise toggle
the `bu-edit-mode` class, run `persistOrder()` when the class was removed,
and respond with the new state. -/
def handleToggleEdit (s : PageState) : PageState × EditResponse :=
  if !s.hasDashboard then
    (s, { hasDashboard := none, active := some false })
  else
    let active := !s.editMode
    ({ s with
        editMode := active
        persistCount := if !active then s.persistCount + 1 else s.persistCount },
     { hasDashboard := none, active := some active })

/-- The `GET_DASHBOARD_EDIT_STATE` branch of the message listener: report
`hasDashboard` and `active` (non-null state and the class test) without
touching any state. -/
def handleGetEditState (s : PageState) : PageState × EditResponse :=
  (s, { hasDashboard := some s.hasDashboard
        active := some (s.hasDashboard && s.editMode) })

/-!
### Drag-and-drop session

The drag handlers of `setupDashboard` operate on the live wrapper DOM.
We model the wrapper's card order, the set of ids carrying the
`bu-hidden-card` class, the `dragged` module variable, the set of ids
carrying the `bu-dragging` class, and the number of `persistOrder` calls.
-/

/-- The state a drag event handler can read or write. -/
structure DragState where
  /-- `dashboard.classList.contains("bu-edit-mode")`. -/
  editMode : Bool
  /-- Ids of the wrapper's cards in DOM order. -/
  domOrder : List String
  /-- Ids whose element carries the `bu-hidden-card` class. -/
  hidden : List String
  /-- The `dragged` variable (id of the referenced card element). -/
  dragged : Option String
  /-- Ids whose element carries the `bu-dragging` class. -/
  markers : List String
  /-- Number of `persistOrder()` calls so far. -/
  persistCount : Nat
deriving DecidableEq, Repr

/-- `wrapper.insertBefore(d, t)` / `wrapper.insertBefore(d, t.nextSibling)`
restricted to the card list: insert `d` directly before (`beforeMid`) or
directly after the first occurrence of `t`. -/
def insertRel (l : List String) (d t : String) (beforeMid : Bool) :
    List String :=
  match l with
  | [] => [d]
  | x :: xs =>
    if x = t then (if beforeMid then d :: x :: xs else x :: d :: xs)
    else x :: insertRel xs d t beforeMid

/-- Moving the dragged card: `insertBefore` first detaches the node from
its current position, then inserts it relative to the target. -/
def moveRel (l : List String) (d t : String) (beforeMid : Bool) :
    List String :=
  insertRel (l.erase d) d t beforeMid

/-- `onDragStart`: a no-op unless the dashboard has the `bu-edit-mode`
class; otherwise record the card under the pointer (possibly null) as
`dragged` and, when non-null, add the `bu-dragging` class to it. -/
def onDragStart (s : DragState) (card : Option String) : DragState :=
  if !s.editMode then s
  else
    { s with
        dragged := card
        markers :=
          match card with
          | some id => if id ∈ s.markers then s.markers else id :: s.markers
          | none => s.markers }

/-- `onDragEnd`: `dragged?.classList.remove("bu-dragging"); dragged = null;`
— unconditionally clear the marker of the dragged card (if any) and null
the reference. -/
def onDragEnd (s : DragState) : DragState :=
  { s with
      markers :=
        match s.dragged with
        | some id => s.markers.erase id
        | none => s.markers
      dragged := none }

/-- `onDragOver`: return unchanged when there is no target card, no dragged
card, the target is the dragged card itself, or the two cards are in
different visibility partitions (`bu-hidden-card` class mismatch);
otherwise reposition the dragged card before or after the target depending
on the pointer's position against the target's vertical midpoint. -/
def onDragOver (s : DragState) (target : Option String) (beforeMid : Bool) :
    DragState :=
  match target, s.dragged with
  | some t, some d =>
    if t = d then s
    else if (decide (d ∈ s.hidden)) ≠ (decide (t ∈ s.hidden)) then s
    else { s with domOrder := moveRel s.domOrder d t beforeMid }
  | _, _ => s

/-- `onDrop`: `e.preventDefault(); persistOrder();` — unconditionally
persist; nothing else changes. -/
def onDrop (s : DragState) : DragState :=
  { s with persistCount := s.persistCount + 1 }

/-- The drag events a session consists of. -/
inductive DragEvent where
  | dragStart (card : Option String)
  | dragEnd
  | dragOver (target : Option String) (beforeMid : Bool)
  | drop
deriving DecidableEq, Repr

/-- Dispatch one drag event to its handler. -/
def dragStep (s : DragState) : DragEvent → DragState
  | .dragStart card => onDragStart s card
  | .dragEnd => onDragEnd s
  | .dragOver target beforeMid => onDragOver s target beforeMid
  | .drop => onDrop s

/-- Run a sequence of drag events. -/
def runDrag (s : DragState) (events : List DragEvent) : DragState :=
  events.foldl dragStep s

/-- Events that may occur strictly between drag-start and drag-end:
drag-over and drop. -/
def isMidEvent : DragEvent → Prop
  | .dragOver _ _ => True
  | .drop => True
  | _ => False

/-!
### Helper lemmas
-/

/-- Characterization of the unshift loop: the result is a block `N` of
newly prepended ids in front of the untouched base order, where `N` is
duplicate-free and holds exactly the discovered ids missing from the base. -/
theorem unshiftNew_spec (dflt ord : List String) :
    ∃ N : List String, unshiftNew dflt ord = N ++ ord ∧ N.Nodup ∧
      ∀ x, x ∈ N ↔ x ∈ dflt ∧ x ∉ ord := by
  induction dflt generalizing ord with
  | nil => exact ⟨[], rfl, List.nodup_nil, by simp⟩
  | cons id rest ih =>
    by_cases h : id ∈ ord
    · obtain ⟨N, hN, hnd, hmem⟩ := ih ord
      refine ⟨N, ?_, hnd, ?_⟩
      · simpa [unshiftNew, List.foldl_cons, if_pos h] using hN
      · intro x
        rw [hmem x]
        constructor
        · rintro ⟨hx, hxo⟩
          exact ⟨List.mem_cons_of_mem _ hx, hxo⟩
        · rintro ⟨hx, hxo⟩
          rcases List.mem_cons.mp hx with rfl | hx
          · exact absurd h hxo
          · exact ⟨hx, hxo⟩
    · obtain ⟨N, hN, hnd, hmem⟩ := ih (id :: ord)
      have hstep : unshiftNew (id :: rest) ord = unshiftNew rest (id :: ord) := by
        simp [unshiftNew, List.foldl_cons, if_neg h]
      refine ⟨N ++ [id], ?_, ?_, ?_⟩
      · rw [hstep, hN]; simp
      · refine List.Nodup.append hnd (List.nodup_singleton id) ?_
        intro x hxN hxid
        rcases List.mem_singleton.mp hxid with rfl
        exact ((hmem x).mp hxN).2 (List.mem_cons_self _ _)
      · intro x
        constructor
        · intro hx
          rcases List.mem_append.mp hx with hx | hx
          · obtain ⟨hxr, hxo⟩ := (hmem x).mp hx
            exact ⟨List.mem_cons_of_mem _ hxr,
              fun hc => hxo (List.mem_cons_of_mem _ hc)⟩
          · rcases List.mem_singleton.mp hx with rfl
            exact ⟨List.mem_cons_self _ _, h⟩
        · rintro ⟨hx, hxo⟩
          rcases List.mem_cons.mp hx with rfl | hx
          · exact List.mem_append.mpr (Or.inr (List.mem_singleton_self _))
          · by_cases hxi : x = id
            · subst hxi
              exact List.mem_append.mpr (Or.inr (List.mem_singleton_self _))
            · refine List.mem_append.mpr (Or.inl ((hmem x).mpr ⟨hx, ?_⟩))
              intro hc
              rcases List.mem_cons.mp hc with rfl | hc
              · exact hxi rfl
              · exact hxo hc

/-- Every id of the base order is a discovered id. -/
theorem baseOrder_subset (frames : List CardElement)
    (state : Option DashboardState) :
    ∀ x ∈ baseOrder frames state, x ∈ defaultOrder frames := by
  intro x hx
  cases state with
  | none => exact hx
  | some s =>
    have := List.mem_filter.mp hx
    exact of_decide_eq_true this.2

/-- The merged order holds exactly the discovered ids. -/
theorem computeOrder_mem_iff (frames : List CardElement)
    (state : Option DashboardState) (x : String) :
    x ∈ computeOrder frames state ↔ x ∈ defaultOrder frames := by
  obtain ⟨N, hN, _, hmem⟩ := unshiftNew_spec (defaultOrder frames)
    (baseOrder frames state)
  rw [computeOrder, hN]
  constructor
  · intro hx
    rcases List.mem_append.mp hx with hx | hx
    · exact ((hmem x).mp hx).1
    · exact baseOrder_subset frames state x hx
  · intro hx
    by_cases hb : x ∈ baseOrder frames state
    · exact List.mem_append.mpr (Or.inr hb)
    · exact List.mem_append.mpr (Or.inl ((hmem x).mpr ⟨hx, hb⟩))

/-- The merged order is duplicate-free whenever the discovered ids and the
stored order are. -/
theorem computeOrder_nodup (frames : List CardElement)
    (state : Option DashboardState)
    (hdflt : (defaultOrder frames).Nodup)
    (hstored : (storedOrderOf state).Nodup) :
    (computeOrder frames state).Nodup := by
  obtain ⟨N, hN, hnd, hmem⟩ := unshiftNew_spec (defaultOrder frames)
    (baseOrder frames state)
  rw [computeOrder, hN]
  have hbase : (baseOrder frames state).Nodup := by
    cases state with
    | none => exact hdflt
    | some s => exact List.Nodup.filter _ hstored
  exact List.Nodup.append hnd hbase (fun x hxN hxb => ((hmem x).mp hxN).2 hxb)

/-- Every merged id lands in exactly one of the two partitions. -/
theorem mem_vis_or_hid (frames : List CardElement)
    (state : Option DashboardState) (x : String)
    (hx : x ∈ computeOrder frames state) :
    x ∈ visibleOrder frames state ∨ x ∈ hiddenOrder frames state := by
  by_cases h : x ∈ hiddenList state
  · exact Or.inr (List.mem_filter.mpr ⟨hx, by simpa using h⟩)
  · exact Or.inl (List.mem_filter.mpr ⟨hx, by simpa using h⟩)

/-- A visible id never carries the hidden class, so it is not in the
hidden partition. -/
theorem visible_not_mem_hidden (frames : List CardElement)
    (state : Option DashboardState) (x : String)
    (hx : x ∈ visibleOrder frames state) :
    x ∉ hiddenOrder frames state := by
  intro hh
  have h1 := (List.mem_filter.mp hx).2
  have h2 := (List.mem_filter.mp hh).2
  simp only [Bool.not_eq_true', decide_eq_false_iff_not, decide_eq_true_eq] at h1 h2
  exact h1 h2

/-- `dedupKeepLast` is the identity on duplicate-free lists. -/
theorem dedupKeepLast_eq_self {l : List String} (h : l.Nodup) :
    dedupKeepLast l = l := by
  rw [dedupKeepLast, List.dedup_eq_self.mpr (List.nodup_reverse.mpr h),
    List.reverse_reverse]

/-- Looking up a key in a tabulated association list returns the tabulated
value (the first matching entry carries it, like any other entry). -/
theorem lookup_map_self (l : List String) (f : String → Nat) (id : String)
    (hid : id ∈ l) :
    List.lookup id (l.map (fun x => (x, f x))) = some (f id) := by
  induction l with
  | nil => cases hid
  | cons x xs ih =>
    by_cases hx : id = x
    · subst hx
      simp [List.lookup_cons]
    · rcases List.mem_cons.mp hid with rfl | hmem
      · exact absurd rfl hx
      · have hbe : (id == x) = false := by simpa using hx
        simp only [List.map_cons, List.lookup_cons, hbe]
        exact ih hmem

/-- `getSpan` only returns valid span values. -/
theorem getSpan_valid (spans : List (String × Nat)) (id : String) :
    getSpan spans id ≠ 0 ∧ getSpan spans id ∈ SPAN_OPTIONS := by
  unfold getSpan
  split
  · split
    · next hv => exact hv
    · by_cases h : id = "bu-stats-frame" <;> simp [h, SPAN_OPTIONS]
  · by_cases h : id = "bu-stats-frame" <;> simp [h, SPAN_OPTIONS]

/-- `toInt32` always lands in the signed 32-bit range. -/
theorem toInt32_bounds (x : Int) :
    -2147483648 ≤ toInt32 x ∧ toInt32 x < 2147483648 := by
  simp only [toInt32]
  split <;> omega

/-- The rolling hash always lands in the signed 32-bit range. -/
theorem hashString_bounds (s : String) :
    -2147483648 ≤ hashString s ∧ hashString s < 2147483648 := by
  rw [hashString]
  have key : ∀ (l : List Char) (h : Int),
      -2147483648 ≤ h → h < 2147483648 →
      -2147483648 ≤ l.foldl (fun h ch => hashStep h ch.toNat) h ∧
        l.foldl (fun h ch => hashStep h ch.toNat) h < 2147483648 := by
    intro l
    induction l with
    | nil => intro h h1 h2; exact ⟨h1, h2⟩
    | cons c cs ih =>
      intro h _ _
      rw [List.foldl_cons]
      exact ih _ (toInt32_bounds _).1 (toInt32_bounds _).2
  exact key s.data 0 (by norm_num) (by norm_num)

/-- Looking a key up after a `Map.set`: the written key returns the new
value, any other key is unaffected. -/
theorem mapSet_lookup (m : List (String × CardElement)) (k k' : String)
    (v : CardElement) :
    List.lookup k' (mapSet m k v) =
      if k' = k then some v else List.lookup k' m := by
  induction m with
  | nil =>
    by_cases h : k' = k
    · have hbe : (k' == k) = true := by simpa using h
      simp [mapSet, List.lookup_cons, hbe, h]
    · have hbe : (k' == k) = false := by simpa using h
      simp [mapSet, List.lookup_cons, hbe, h]
  | cons p rest ih =>
    obtain ⟨a, b⟩ := p
    by_cases hp : a = k
    · rw [mapSet, if_pos hp]
      by_cases h : k' = k
      · have hbe : (k' == k) = true := by simpa using h
        simp [List.lookup_cons, hbe, h]
      · have hbe : (k' == k) = false := by simpa using h
        have hba : (k' == a) = false := by simpa [hp] using h
        simp [List.lookup_cons, hbe, hba, h]
    · rw [mapSet, if_neg hp]
      by_cases h : k' = a
      · have hba : (k' == a) = true := by simpa using h
        have hnk : ¬(k' = k) := fun hc => hp (h.symm.trans hc)
        simp [List.lookup_cons, hba, hnk]
      · have hba : (k' == a) = false := by simpa using h
        simp only [List.lookup_cons, hba]
        exact ih

/-- The registry lookup, with an arbitrary starting map, is the last
matching frame, falling back to the starting map. -/
theorem idToFrame_go_lookup (frames : List CardElement)
    (m : List (String × CardElement)) (id : String) :
    List.lookup id (frames.foldl (fun m f => mapSet m (getFrameId f) f) m) =
      frames.foldl (fun acc f => if getFrameId f = id then some f else acc)
        (List.lookup id m) := by
  induction frames generalizing m with
  | nil => rfl
  | cons f fs ih =>
    rw [List.foldl_cons, List.foldl_cons, ih, mapSet_lookup]
    by_cases h : getFrameId f = id
    · rw [if_pos h, if_pos h.symm]
    · rw [if_neg h, if_neg (fun hc => h hc.symm)]

/-- The registry maps every id to the last discovered element resolving to
it (and to nothing when no discovered element resolves to it). -/
theorem idToFrame_lookup (frames : List CardElement) (id : String) :
    List.lookup id (idToFrame frames) = lastResolved frames id :=
  idToFrame_go_lookup frames [] id

/-- `Map.set` leaves the key sequence unchanged when the key exists and
appends it otherwise. -/
theorem mapSet_keys (m : List (String × CardElement)) (k : String)
    (v : CardElement) :
    (mapSet m k v).map Prod.fst =
      if k ∈ m.map Prod.fst then m.map Prod.fst
      else m.map Prod.fst ++ [k] := by
  induction m with
  | nil => simp [mapSet]
  | cons p rest ih =>
    rw [mapSet]
    by_cases hp : p.1 = k
    · rw [if_pos hp]
      have : k ∈ (p :: rest).map Prod.fst := by
        rw [List.map_cons, hp]
        exact List.mem_cons_self _ _
      rw [if_pos this]
      simp [hp]
    · rw [if_neg hp, List.map_cons, List.map_cons, ih]
      have hne : (k ∈ p.1 :: rest.map Prod.fst) ↔ k ∈ rest.map Prod.fst := by
        constructor
        · intro h
          rcases List.mem_cons.mp h with h | h
          · exact absurd h.symm hp
          · exact h
        · exact List.mem_cons_of_mem _
      by_cases h : k ∈ rest.map Prod.fst
      · rw [if_pos h, if_pos (hne.mpr h)]
      · rw [if_neg h, if_neg (fun hc => h (hne.mp hc))]
        simp

/-- `Map.set` preserves distinctness of keys. -/
theorem mapSet_keys_nodup (m : List (String × CardElement)) (k : String)
    (v : CardElement) (h : (m.map Prod.fst).Nodup) :
    ((mapSet m k v).map Prod.fst).Nodup := by
  rw [mapSet_keys]
  by_cases hk : k ∈ m.map Prod.fst
  · rwa [if_pos hk]
  · rw [if_neg hk]
    exact List.Nodup.append h (List.nodup_singleton k)
      (fun x hx hx1 => hk (List.mem_singleton.mp hx1 ▸ hx))

/-- Key membership after `Map.set`. -/
theorem mapSet_keys_mem (m : List (String × CardElement)) (k : String)
    (v : CardElement) (x : String) :
    x ∈ (mapSet m k v).map Prod.fst ↔ x = k ∨ x ∈ m.map Prod.fst := by
  rw [mapSet_keys]
  by_cases hk : k ∈ m.map Prod.fst
  · rw [if_pos hk]
    constructor
    · exact Or.inr
    · rintro (rfl | h)
      · exact hk
      · exact h
  · rw [if_neg hk]
    constructor
    · intro h
      rcases List.mem_append.mp h with h | h
      · exact Or.inr h
      · exact Or.inl (List.mem_singleton.mp h)
    · rintro (rfl | h)
      · exact List.mem_append.mpr (Or.inr (List.mem_singleton_self _))
      · exact List.mem_append.mpr (Or.inl h)

/-- The registry's key sequence is duplicate-free, for any starting map. -/
theorem idToFrame_go_keys_nodup (frames : List CardElement)
    (m : List (String × CardElement)) (h : (m.map Prod.fst).Nodup) :
    (((frames.foldl (fun m f => mapSet m (getFrameId f) f) m)).map
      Prod.fst).Nodup := by
  induction frames generalizing m with
  | nil => exact h
  | cons f fs ih =>
    rw [List.foldl_cons]
    exact ih _ (mapSet_keys_nodup _ _ _ h)

/-- Registry key membership, for any starting map. -/
theorem idToFrame_go_keys_mem (frames : List CardElement)
    (m : List (String × CardElement)) (x : String) :
    (x ∈ ((frames.foldl (fun m f => mapSet m (getFrameId f) f) m)).map
        Prod.fst) ↔
      x ∈ defaultOrder frames ∨ x ∈ m.map Prod.fst := by
  induction frames generalizing m with
  | nil => simp [defaultOrder]
  | cons f fs ih =>
    rw [List.foldl_cons, ih, mapSet_keys_mem]
    simp only [defaultOrder, List.map_cons, List.mem_cons]
    tauto

/-- Drag-over and drop never touch the dragged reference, the dragging
markers or the hidden classes. -/
theorem midEvent_preserves (s : DragState) (e : DragEvent) (h : isMidEvent e) :
    (dragStep s e).dragged = s.dragged ∧ (dragStep s e).markers = s.markers ∧
      (dragStep s e).hidden = s.hidden := by
  cases e with
  | dragStart c => exact absurd h (by simp [isMidEvent])
  | dragEnd => exact absurd h (by simp [isMidEvent])
  | drop => exact ⟨rfl, rfl, rfl⟩
  | dragOver t b =>
    cases t with
    | none => exact ⟨rfl, rfl, rfl⟩
    | some t =>
      cases hd : s.dragged with
      | none => simp [dragStep, onDragOver, hd]
      | some d =>
        simp only [dragStep, onDragOver, hd]
        split
        · exact ⟨hd, rfl, rfl⟩
        · split
          · exact ⟨hd, rfl, rfl⟩
          · exact ⟨rfl, rfl, rfl⟩

/-- Running only drag-over and drop events preserves the dragged reference
and the markers. -/
theorem runMid_preserves (mids : List DragEvent) (s : DragState)
    (h : ∀ e ∈ mids, isMidEvent e) :
    (runDrag s mids).dragged = s.dragged ∧
      (runDrag s mids).markers = s.markers := by
  induction mids generalizing s with
  | nil => exact ⟨rfl, rfl⟩
  | cons e rest ih =>
    have h1 := midEvent_preserves s e (h e (List.mem_cons_self _ _))
    have h2 := ih (dragStep s e)
      (fun e' he' => h e' (List.mem_cons_of_mem _ he'))
    rw [runDrag, List.foldl_cons]
    exact ⟨h2.1.trans h1.1, h2.2.trans h1.2.1⟩

/-!
### The claims
-/

/-- **C5** (confirmed). Identity resolution: an element carrying a native
identifier resolves to it unchanged; otherwise `resolve` returns the
fixed-prefix token `bu-` + base-36 of the absolute value of the 32-bit
rolling hash of the element's title-link href (its navigation target, not
its display text), so two elements with the same native id, or both
without one and with the same link target — regardless of display-language
text — resolve to the same id. -/
theorem identity_resolution (e e' : CardElement) :
    (e.nativeId ≠ "" → getFrameId e = e.nativeId) ∧
    (e.nativeId = "" →
      getFrameId e = "bu-" ++ toBase36 (hashString (e.href.getD "")).natAbs ∧
      -2147483648 ≤ hashString (e.href.getD "") ∧
      hashString (e.href.getD "") < 2147483648) ∧
    ((e.nativeId = e'.nativeId ∧ e.nativeId ≠ "") ∨
        (e.nativeId = "" ∧ e'.nativeId = "" ∧ e.href = e'.href) →
      getFrameId e = getFrameId e') := by
  refine ⟨fun h => ?_, fun h => ?_, fun h => ?_⟩
  · rw [getFrameId, if_pos h]
  · exact ⟨by rw [getFrameId, if_neg (by simpa using h)],
      (hashString_bounds _).1, (hashString_bounds _).2⟩
  · rcases h with ⟨heq, hne⟩ | ⟨h1, h2, hh⟩
    · rw [getFrameId, getFrameId, if_pos hne, if_pos (heq ▸ hne), heq]
    · rw [getFrameId, getFrameId, if_neg (by simpa using h1),
        if_neg (by simpa using h2), hh]

/-- Witness for C5: a native id passes through unchanged, and two elements
sharing a link target but displaying differently-localized titles resolve
to the same hash-based id. -/
theorem identity_resolution_witness :
    getFrameId ⟨"frame1", some "/q", "X"⟩ = "frame1" ∧
    getFrameId ⟨"", some "/kontroler.php?_action=home", "Plan zajęć"⟩ =
      getFrameId ⟨"", some "/kontroler.php?_action=home", "Timetable"⟩ :=
  ⟨(identity_resolution ⟨"frame1", some "/q", "X"⟩
      ⟨"frame1", some "/q", "X"⟩).1 (by decide),
   (identity_resolution ⟨"", some "/kontroler.php?_action=home", "Plan zajęć"⟩
      ⟨"", some "/kontroler.php?_action=home", "Timetable"⟩).2.2
      (Or.inr ⟨rfl, rfl, rfl⟩)⟩

/-- **C6** (confirmed). Width-class resolution: a stored span that is one
of the four enum values (2 = 1/3, 3 = 1/2, 4 = 2/3, 6 = full row) is used
as-is; with no stored span, or an invalid one, the statistics-summary
card's id `bu-stats-frame` resolves to the full-row class 6 and every
other id to the half-row class 3. -/
theorem width_class_resolution (spans : List (String × Nat)) (id : String) :
    (∀ s, spans.lookup id = some s → s ∈ SPAN_OPTIONS →
      getSpan spans id = s) ∧
    (spans.lookup id = none ∨
        (∃ s, spans.lookup id = some s ∧ s ∉ SPAN_OPTIONS) →
      getSpan spans id = if id = "bu-stats-frame" then 6 else 3) := by
  constructor
  · intro s hs hmem
    have hne : s ≠ 0 := by
      intro h0
      rw [h0] at hmem
      simp [SPAN_OPTIONS] at hmem
    rw [getSpan, hs]
    simp only [if_pos (And.intro hne hmem)]
  · rintro (h | ⟨s, hs, hmem⟩)
    · simp only [getSpan, h]
    · have hcond : ¬(s ≠ 0 ∧ s ∈ SPAN_OPTIONS) := fun hc => hmem hc.2
      simp only [getSpan, hs, if_neg hcond]

/-- Witness for C6: a valid stored span (2/3 row) is honored; an invalid
stored span falls back to the default; with no stored span the statistics
panel gets the full row and another card the half row. -/
theorem width_class_resolution_witness :
    getSpan [("x", 4)] "x" = 4 ∧
    getSpan [("y", 9)] "y" = 3 ∧
    getSpan [] "bu-stats-frame" = 6 ∧
    getSpan [] "other" = 3 :=
  ⟨(width_class_resolution [("x", 4)] "x").1 4 (by decide) (by decide),
   ((width_class_resolution [("y", 9)] "y").2
      (Or.inr ⟨9, by decide, by decide⟩)).trans (by decide),
   ((width_class_resolution [] "bu-stats-frame").2 (Or.inl rfl)).trans
      (by decide),
   ((width_class_resolution [] "other").2 (Or.inl rfl)).trans (by decide)⟩

/-- **C7** (confirmed). With an initialized dashboard, every
`TOGGLE_DASHBOARD_EDIT` flips the edit-mode gate and responds
`{active}` equal to the new gate state; a transition from active to
inactive runs exactly one `persistOrder` and any other transition runs
none; `GET_DASHBOARD_EDIT_STATE` responds `{hasDashboard, active}` from
the current state and changes nothing. -/
theorem edit_toggle_contract (s : PageState) (h : s.hasDashboard = true) :
    ((handleToggleEdit s).1.editMode = !s.editMode) ∧
    ((handleToggleEdit s).2.active = some (!s.editMode)) ∧
    ((handleToggleEdit s).1.hasDashboard = s.hasDashboard) ∧
    (s.editMode = true →
      (handleToggleEdit s).1.persistCount = s.persistCount + 1) ∧
    (s.editMode = false →
      (handleToggleEdit s).1.persistCount = s.persistCount) ∧
    ((handleGetEditState s).1 = s) ∧
    ((handleGetEditState s).2 =
      { hasDashboard := some s.hasDashboard
        active := some (s.hasDashboard && s.editMode) }) := by
  refine ⟨?_, ?_, ?_, fun he => ?_, fun he => ?_, rfl, rfl⟩ <;>
    simp [handleToggleEdit, h] <;> simp [he]

/-- Witness for C7: toggling out of active edit mode on an initialized
dashboard persists once and reports inactive. -/
theorem edit_toggle_contract_witness :
    (handleToggleEdit ⟨true, true, 0⟩).1.persistCount = 0 + 1 ∧
    (handleToggleEdit ⟨true, true, 0⟩).2.active = some (!true) :=
  ⟨(edit_toggle_contract ⟨true, true, 0⟩ rfl).2.2.2.1 rfl,
   (edit_toggle_contract ⟨true, true, 0⟩ rfl).2.1⟩

/-- **C10** (confirmed). Toggle before initialization: with no dashboard
session, `TOGGLE_DASHBOARD_EDIT` responds `{active: false}` and performs
no state change, and a subsequent `GET_DASHBOARD_EDIT_STATE` still reports
`{hasDashboard: false, active: false}`. -/
theorem toggle_before_init (s : PageState) (h : s.hasDashboard = false) :
    ((handleToggleEdit s).1 = s) ∧
    ((handleToggleEdit s).2 = { hasDashboard := none, active := some false }) ∧
    ((handleGetEditState (handleToggleEdit s).1).2 =
      { hasDashboard := some false, active := some false }) := by
  refine ⟨?_, ?_, ?_⟩ <;> simp [handleToggleEdit, handleGetEditState, h]

/-- Witness for C10: on a page without a dashboard (even with a stray
edit-mode flag), the toggle is a pure `{active: false}` response. -/
theorem toggle_before_init_witness :
    ((handleToggleEdit ⟨false, true, 5⟩).1 = ⟨false, true, 5⟩) ∧
    ((handleToggleEdit ⟨false, true, 5⟩).2 =
      { hasDashboard := none, active := some false }) ∧
    ((handleGetEditState (handleToggleEdit ⟨false, true, 5⟩).1).2 =
      { hasDashboard := some false, active := some false }) :=
  toggle_before_init ⟨false, true, 5⟩ rfl

/-- **C9** (confirmed). Drag-session cleanup: starting from an idle clean
state, a drag-start followed by any drag-over/drop events and a drag-end
leaves the dragged reference null and no element with the `bu-dragging`
marker; the drag-end transition nulls the reference unconditionally; and a
drag-start is only admitted into the dragging state when the edit-mode
gate is active (otherwise it is a strict no-op). -/
theorem drag_session_cleanup (s : DragState) (c : Option String)
    (mids : List DragEvent)
    (hidle : s.dragged = none) (hclean : s.markers = [])
    (hmids : ∀ e ∈ mids, isMidEvent e) :
    ((runDrag s (DragEvent.dragStart c :: mids ++ [DragEvent.dragEnd])).dragged
        = none) ∧
    ((runDrag s (DragEvent.dragStart c :: mids ++ [DragEvent.dragEnd])).markers
        = []) ∧
    (∀ u : DragState, (dragStep u DragEvent.dragEnd).dragged = none) ∧
    (s.editMode = false → dragStep s (DragEvent.dragStart c) = s) := by
  have hrun : runDrag s (DragEvent.dragStart c :: mids ++ [DragEvent.dragEnd]) =
      onDragEnd (runDrag (onDragStart s c) mids) := by
    rw [runDrag, List.foldl_append]
    rfl
  have hmid := runMid_preserves mids (onDragStart s c) hmids
  refine ⟨?_, ?_, fun u => rfl, fun he => ?_⟩
  · rw [hrun]; rfl
  · rw [hrun]
    simp only [onDragEnd, hmid.1, hmid.2]
    cases he : s.editMode with
    | false => simp [onDragStart, he, hidle, hclean]
    | true =>
      cases c with
      | none => simp [onDragStart, he, hclean]
      | some id => simp [onDragStart, he, hclean]
  · simp [dragStep, onDragStart, he]

/-- Witness for C9: a full session (start over a card, a drag-over, a
drop, then drag-end) on a concrete state ends with a null reference and
no markers. -/
theorem drag_session_cleanup_witness :
    ((runDrag ⟨true, ["A", "B"], [], none, [], 0⟩
        (DragEvent.dragStart (some "A") ::
          [DragEvent.dragOver (some "B") true, DragEvent.drop] ++
          [DragEvent.dragEnd])).dragged = none) ∧
    ((runDrag ⟨true, ["A", "B"], [], none, [], 0⟩
        (DragEvent.dragStart (some "A") ::
          [DragEvent.dragOver (some "B") true, DragEvent.drop] ++
          [DragEvent.dragEnd])).markers = []) := by
  have h := drag_session_cleanup ⟨true, ["A", "B"], [], none, [], 0⟩
    (some "A") [DragEvent.dragOver (some "B") true, DragEvent.drop]
    rfl rfl (by
      intro e he
      rcases List.mem_cons.mp he with rfl | he2
      · exact True.intro
      · rcases List.mem_singleton.mp he2 with rfl
        exact True.intro)
  exact ⟨h.1, h.2.1⟩

/-- **C8** (corrected claim). Cross-partition drag guard: a drag-over
whose target card is in the other visibility partition than the dragged
card is a strict no-op — the state, in particular the DOM order and every
card's hidden membership, is unchanged; but the drop ending such a gesture
still runs exactly one persistence call (which rewrites the unchanged
layout), rather than "no persistence call". -/
theorem cross_partition_guard (s : DragState) (d t : String) (b : Bool)
    (hd : s.dragged = some d)
    (hdiff : decide (d ∈ s.hidden) ≠ decide (t ∈ s.hidden)) :
    (dragStep s (DragEvent.dragOver (some t) b) = s) ∧
    (∀ u : DragState, dragStep u DragEvent.drop =
      { u with persistCount := u.persistCount + 1 }) := by
  refine ⟨?_, fun u => rfl⟩
  have hne : t ≠ d := by
    intro hc
    subst hc
    exact hdiff rfl
  simp only [dragStep, onDragOver, hd]
  rw [if_neg hne, if_pos hdiff]

/-- Witness for C8 (amended): visible card `A` dragged, drag-over on
hidden card `B` changes nothing; a drop bumps the persistence count. -/
theorem cross_partition_guard_witness :
    (dragStep ⟨true, ["A", "B"], ["B"], some "A", ["A"], 0⟩
        (DragEvent.dragOver (some "B") true) =
      ⟨true, ["A", "B"], ["B"], some "A", ["A"], 0⟩) ∧
    (dragStep ⟨true, ["A", "B"], ["B"], some "A", ["A"], 0⟩
        DragEvent.drop =
      ⟨true, ["A", "B"], ["B"], some "A", ["A"], 1⟩) := by
  have h := cross_partition_guard ⟨true, ["A", "B"], ["B"], some "A", ["A"], 0⟩
    "A" "B" true rfl (by decide)
  exact ⟨h.1, h.2 _⟩

/-- Counterexample to C8 as stated: visible card `A` is drag-started,
dragged over hidden card `B` (no-op on the DOM), and dropped there; the
DOM order and hidden membership are indeed unchanged, but `persistOrder`
runs once — the claim's "triggers no persistence call" is false. -/
theorem cross_partition_drop_persists :
    ((runDrag ⟨true, ["A", "B"], ["B"], none, [], 0⟩
        [DragEvent.dragStart (some "A"), DragEvent.dragOver (some "B") true,
          DragEvent.drop]).domOrder = ["A", "B"]) ∧
    ((runDrag ⟨true, ["A", "B"], ["B"], none, [], 0⟩
        [DragEvent.dragStart (some "A"), DragEvent.dragOver (some "B") true,
          DragEvent.drop]).hidden = ["B"]) ∧
    ((runDrag ⟨true, ["A", "B"], ["B"], none, [], 0⟩
        [DragEvent.dragStart (some "A"), DragEvent.dragOver (some "B") true,
          DragEvent.drop]).persistCount = 1) ∧
    (1 : Nat) ≠ 0 := by
  refine ⟨rfl, rfl, rfl, by decide⟩

/-- The unshift loop adds nothing when every discovered id is already in
the base order. -/
theorem unshiftNew_eq_self (dflt base : List String)
    (h : ∀ x ∈ dflt, x ∈ base) : unshiftNew dflt base = base := by
  obtain ⟨N, hN, _, hmem⟩ := unshiftNew_spec dflt base
  have hnil : N = [] := List.eq_nil_iff_forall_not_mem.mpr
    (fun x hx => ((hmem x).mp hx).2 (h x ((hmem x).mp hx).1))
  rw [hN, hnil, List.nil_append]

/-- With no stored state the merged order is exactly the discovery order
(duplicates from colliding ids included). -/
theorem computeOrder_none (frames : List CardElement) :
    computeOrder frames none = defaultOrder frames :=
  unshiftNew_eq_self _ _ (fun _ hx => hx)

/-- **C2** (corrected claim). Duplicate-identity tie-break: the registry
holds exactly one entry per distinct id (its key sequence is
duplicate-free and spans exactly the resolved ids), but a duplicate id is
deduplicated to the **last**-seen element, not the first-seen one; the id
appears at most once in the computed order whenever a stored state with a
duplicate-free order is present, while with no stored state it appears
once per colliding discovered element. -/
theorem duplicate_identity_tiebreak (frames : List CardElement) (id : String) :
    ((idToFrame frames).map Prod.fst).Nodup ∧
    (id ∈ (idToFrame frames).map Prod.fst ↔ id ∈ defaultOrder frames) ∧
    (List.lookup id (idToFrame frames) = lastResolved frames id) ∧
    (∀ st : DashboardState, st.order.Nodup →
      List.count id (computeOrder frames (some st)) ≤ 1) ∧
    (List.count id (computeOrder frames none) =
      List.count id (defaultOrder frames)) := by
  refine ⟨?_, ?_, idToFrame_lookup frames id, ?_, ?_⟩
  · exact idToFrame_go_keys_nodup frames [] (by simp)
  · rw [idToFrame, idToFrame_go_keys_mem]
    simp
  · intro st hnd
    obtain ⟨N, hN, hNnd, hmem⟩ := unshiftNew_spec (defaultOrder frames)
      (baseOrder frames (some st))
    have hbase : (baseOrder frames (some st)).Nodup := List.Nodup.filter _ hnd
    rw [computeOrder, hN, List.count_append]
    by_cases hidN : id ∈ N
    · have h0 : List.count id (baseOrder frames (some st)) = 0 :=
        List.count_eq_zero.mpr ((hmem id).mp hidN).2
      have h1 : List.count id N ≤ 1 := List.nodup_iff_count_le_one.mp hNnd id
      omega
    · have h0 : List.count id N = 0 := List.count_eq_zero.mpr hidN
      have h1 : List.count id (baseOrder frames (some st)) ≤ 1 :=
        List.nodup_iff_count_le_one.mp hbase id
      omega
  · rw [computeOrder_none]

/-- Witness for C2 (amended): two colliding link-less cards — the registry
has the single key `bu-0` and maps it to the later element; with a stored
order the id appears once. -/
theorem duplicate_identity_tiebreak_witness :
    List.lookup "bu-0" (idToFrame [⟨"", none, "X"⟩, ⟨"", none, "Y"⟩]) =
      lastResolved [⟨"", none, "X"⟩, ⟨"", none, "Y"⟩] "bu-0" ∧
    List.count "bu-0"
      (computeOrder [⟨"", none, "X"⟩, ⟨"", none, "Y"⟩]
        (some ⟨["bu-0"], [], []⟩)) ≤ 1 :=
  ⟨(duplicate_identity_tiebreak [⟨"", none, "X"⟩, ⟨"", none, "Y"⟩]
      "bu-0").2.2.1,
   (duplicate_identity_tiebreak [⟨"", none, "X"⟩, ⟨"", none, "Y"⟩]
      "bu-0").2.2.2.1 ⟨["bu-0"], [], []⟩ (by decide)⟩

/-- Counterexample to C2 as stated: two elements without native ids and
without title links both resolve to `bu-0`; the registry maps `bu-0` to
the second (last-seen) element, not the first-seen one, and with no
stored state the id appears twice in the computed order. -/
theorem duplicate_identity_firstseen_false :
    (getFrameId ⟨"", none, "X"⟩ = "bu-0" ∧
      getFrameId ⟨"", none, "Y"⟩ = "bu-0") ∧
    List.lookup "bu-0" (idToFrame [⟨"", none, "X"⟩, ⟨"", none, "Y"⟩]) =
      some ⟨"", none, "Y"⟩ ∧
    ((⟨"", none, "Y"⟩ : CardElement) ≠ ⟨"", none, "X"⟩) ∧
    List.count "bu-0"
      (computeOrder [⟨"", none, "X"⟩, ⟨"", none, "Y"⟩] none) = 2 := by
  refine ⟨⟨rfl, rfl⟩, rfl, by decide, rfl⟩

/-- **C1** (corrected claim). Reconciliation completeness: provided the
discovered cards resolve to pairwise-distinct ids and the stored order is
duplicate-free (as the LayoutState data model requires) — the stored state
may still be null, hold stale ids, or hide/span undiscovered ids — the
reconciled visible and hidden orders are disjoint, their union as sets is
exactly the set of discovered ids, and each id occurs exactly once across
the two sequences. -/
theorem reconciliation_completeness (frames : List CardElement)
    (state : Option DashboardState)
    (hdflt : (defaultOrder frames).Nodup)
    (hstored : (storedOrderOf state).Nodup) :
    (∀ x ∈ visibleOrder frames state, x ∉ hiddenOrder frames state) ∧
    (∀ x, (x ∈ visibleOrder frames state ∨ x ∈ hiddenOrder frames state) ↔
      x ∈ defaultOrder frames) ∧
    (visibleOrder frames state ++ hiddenOrder frames state).Nodup := by
  refine ⟨visible_not_mem_hidden frames state, fun x => ?_, ?_⟩
  · constructor
    · rintro (hx | hx)
      · exact (computeOrder_mem_iff frames state x).mp
          (List.mem_filter.mp hx).1
      · exact (computeOrder_mem_iff frames state x).mp
          (List.mem_filter.mp hx).1
    · intro hx
      exact mem_vis_or_hid frames state x
        ((computeOrder_mem_iff frames state x).mpr hx)
  · have hord := computeOrder_nodup frames state hdflt hstored
    have hperm : (hiddenOrder frames state ++ visibleOrder frames state).Perm
        (computeOrder frames state) :=
      List.filter_append_perm (fun id => decide (id ∈ hiddenList state))
        (computeOrder frames state)
    have h2 : (visibleOrder frames state ++ hiddenOrder frames state).Perm
        (computeOrder frames state) :=
      List.Perm.trans List.perm_append_comm hperm
    exact List.Perm.nodup h2.symm hord

/-- Witness for C1 (amended): three distinct cards against a stored order
with one stale id and a hidden id — the partition is duplicate-free and
covers exactly the discovered ids. -/
theorem reconciliation_completeness_witness :
    ((visibleOrder [⟨"a", none, "A"⟩, ⟨"b", none, "B"⟩, ⟨"c", none, "C"⟩]
        (some ⟨["c", "z"], ["b"], []⟩) ++
      hiddenOrder [⟨"a", none, "A"⟩, ⟨"b", none, "B"⟩, ⟨"c", none, "C"⟩]
        (some ⟨["c", "z"], ["b"], []⟩)).Nodup) ∧
    (("a" ∈ visibleOrder [⟨"a", none, "A"⟩, ⟨"b", none, "B"⟩, ⟨"c", none, "C"⟩]
          (some ⟨["c", "z"], ["b"], []⟩) ∨
        "a" ∈ hiddenOrder [⟨"a", none, "A"⟩, ⟨"b", none, "B"⟩, ⟨"c", none, "C"⟩]
          (some ⟨["c", "z"], ["b"], []⟩)) ↔
      "a" ∈ defaultOrder [⟨"a", none, "A"⟩, ⟨"b", none, "B"⟩, ⟨"c", none, "C"⟩]) :=
  ⟨(reconciliation_completeness
      [⟨"a", none, "A"⟩, ⟨"b", none, "B"⟩, ⟨"c", none, "C"⟩]
      (some ⟨["c", "z"], ["b"], []⟩) (by decide) (by decide)).2.2,
   (reconciliation_completeness
      [⟨"a", none, "A"⟩, ⟨"b", none, "B"⟩, ⟨"c", none, "C"⟩]
      (some ⟨["c", "z"], ["b"], []⟩) (by decide) (by decide)).2.1 "a"⟩

/-- Counterexample to C1 as stated: two colliding link-less cards and a
null stored state — the id `bu-0` occurs twice across the two sequences,
not exactly once. -/
theorem reconciliation_completeness_false :
    defaultOrder [⟨"", none, "X"⟩, ⟨"", none, "Y"⟩] = ["bu-0", "bu-0"] ∧
    List.count "bu-0"
      (visibleOrder [⟨"", none, "X"⟩, ⟨"", none, "Y"⟩] none ++
        hiddenOrder [⟨"", none, "X"⟩, ⟨"", none, "Y"⟩] none) = 2 ∧
    (2 : Nat) ≠ 1 := by
  exact ⟨rfl, rfl, by decide⟩

/-- **C3** (corrected claim). New-card surfacing: a discovered id absent
from the stored order **and not referenced by the stored hidden set** is
placed in `visibleOrder`, ahead of every id carried over from the stored
order; (a discovered id absent from the stored order but listed in the
stored hidden ids lands in `hiddenOrder` instead, see the
counterexample). -/
theorem new_card_surfacing (frames : List CardElement) (st : DashboardState)
    (d : String)
    (hd : d ∈ defaultOrder frames)
    (hdo : d ∉ st.order)
    (hdh : d ∉ st.hidden) :
    d ∈ visibleOrder frames (some st) ∧
    ∀ c ∈ st.order, c ∈ visibleOrder frames (some st) →
      (visibleOrder frames (some st)).indexOf d <
        (visibleOrder frames (some st)).indexOf c := by
  obtain ⟨N, hN, hNnd, hmem⟩ := unshiftNew_spec (defaultOrder frames)
    (baseOrder frames (some st))
  have hdbase : d ∉ baseOrder frames (some st) := by
    intro hc
    exact hdo (List.mem_filter.mp hc).1
  have hdN : d ∈ N := (hmem d).mpr ⟨hd, hdbase⟩
  have hvis : visibleOrder frames (some st) =
      N.filter (fun id => !(decide (id ∈ hiddenList (some st)))) ++
        (baseOrder frames (some st)).filter
          (fun id => !(decide (id ∈ hiddenList (some st)))) := by
    rw [visibleOrder, computeOrder, hN, List.filter_append]
  have hpd : (fun id => !(decide (id ∈ hiddenList (some st)))) d = true := by
    simp [hiddenList, hdh]
  have hdNf : d ∈ N.filter (fun id => !(decide (id ∈ hiddenList (some st)))) :=
    List.mem_filter.mpr ⟨hdN, hpd⟩
  constructor
  · rw [hvis]
    exact List.mem_append.mpr (Or.inl hdNf)
  · intro c hc hcvis
    have hcord : c ∈ computeOrder frames (some st) :=
      (List.mem_filter.mp hcvis).1
    have hcd : c ∈ defaultOrder frames :=
      (computeOrder_mem_iff frames (some st) c).mp hcord
    have hcbase : c ∈ baseOrder frames (some st) :=
      List.mem_filter.mpr ⟨hc, by simpa using hcd⟩
    have hcN : c ∉ N := fun hx => ((hmem c).mp hx).2 hcbase
    have hcNf : c ∉ N.filter
        (fun id => !(decide (id ∈ hiddenList (some st)))) :=
      fun hx => hcN (List.mem_filter.mp hx).1
    rw [hvis, List.indexOf_append_of_mem hdNf,
      List.indexOf_append_of_not_mem hcNf]
    exact lt_of_lt_of_le (List.indexOf_lt_length.mpr hdNf)
      (Nat.le_add_right _ _)

/-- Witness for C3 (amended): card `a` is new relative to a stored order
`["b"]`; it surfaces visible and ahead of the carried-over card `b`. -/
theorem new_card_surfacing_witness :
    "a" ∈ visibleOrder [⟨"a", none, "A"⟩, ⟨"b", none, "B"⟩]
      (some ⟨["b"], [], []⟩) ∧
    (visibleOrder [⟨"a", none, "A"⟩, ⟨"b", none, "B"⟩]
        (some ⟨["b"], [], []⟩)).indexOf "a" <
      (visibleOrder [⟨"a", none, "A"⟩, ⟨"b", none, "B"⟩]
        (some ⟨["b"], [], []⟩)).indexOf "b" := by
  have h := new_card_surfacing [⟨"a", none, "A"⟩, ⟨"b", none, "B"⟩]
    ⟨["b"], [], []⟩ "a" (by decide) (by decide) (by decide)
  exact ⟨h.1, h.2 "b" (by decide) (by decide)⟩

/-- Counterexample to C3 as stated: card `a` is discovered and absent from
the stored order, yet a stored hidden set containing `a` sends it to
`hiddenOrder`, not `visibleOrder`. -/
theorem new_card_surfacing_false :
    "a" ∈ defaultOrder [⟨"a", none, "T"⟩] ∧
    "a" ∉ (⟨[], ["a"], []⟩ : DashboardState).order ∧
    visibleOrder [⟨"a", none, "T"⟩] (some ⟨[], ["a"], []⟩) = [] ∧
    hiddenOrder [⟨"a", none, "T"⟩] (some ⟨[], ["a"], []⟩) = ["a"] := by
  exact ⟨by decide, by decide, rfl, rfl⟩

/-- Projection of `reconcile`: the visible order field. -/
theorem reconcile_visibleOrder (frames : List CardElement)
    (state : Option DashboardState) :
    (reconcile frames state).visibleOrder = visibleOrder frames state := rfl

/-- Projection of `reconcile`: the hidden order field. -/
theorem reconcile_hiddenOrder (frames : List CardElement)
    (state : Option DashboardState) :
    (reconcile frames state).hiddenOrder = hiddenOrder frames state := rfl

/-- Projection of `reconcile`: the resolved width field. -/
theorem reconcile_widths (frames : List CardElement)
    (state : Option DashboardState) :
    (reconcile frames state).widths =
      (visibleOrder frames state ++ hiddenOrder frames state).map
        (fun id => (id, getSpan (spansOf state) id)) := rfl

/-- Two effective layouts with equal fields are equal. -/
theorem effectiveLayout_ext (a b : EffectiveLayout)
    (h1 : a.visibleOrder = b.visibleOrder)
    (h2 : a.hiddenOrder = b.hiddenOrder)
    (h3 : a.widths = b.widths) : a = b := by
  cases a
  cases b
  simp_all

/-- A stored span entry that is valid is resolved as-is. -/
theorem getSpan_of_lookup_valid (sp : List (String × Nat)) (id : String)
    (s : Nat) (hl : sp.lookup id = some s) (h0 : s ≠ 0)
    (hmem : s ∈ SPAN_OPTIONS) : getSpan sp id = s := by
  rw [getSpan, hl]
  simp only [if_pos (And.intro h0 hmem)]

/-- Looking an id up in the spans snapshot written by `getSpans` resolves
to the same span the original state resolved to (the snapshot value is
always a valid span, so the validity re-check passes). -/
theorem getSpan_tabulated (l : List String) (sp : List (String × Nat))
    (id : String) (h : id ∈ l) :
    getSpan (l.map (fun x => (x, getSpan sp x))) id = getSpan sp id :=
  getSpan_of_lookup_valid _ _ _ (lookup_map_self l _ id h)
    (getSpan_valid sp id).1 (getSpan_valid sp id).2

/-- Under duplicate-free discovered ids and stored order, the persisted
snapshot is literally: full order = visible then hidden, hidden = the
hidden order, spans = the resolved span of every laid-out id. -/
theorem persistState_eq (frames : List CardElement)
    (state : Option DashboardState)
    (hdflt : (defaultOrder frames).Nodup)
    (hstored : (storedOrderOf state).Nodup) :
    persistState frames state =
      ⟨visibleOrder frames state ++ hiddenOrder frames state,
       hiddenOrder frames state,
       (visibleOrder frames state ++ hiddenOrder frames state).map
         (fun id => (id, getSpan (spansOf state) id))⟩ := by
  have hord := computeOrder_nodup frames state hdflt hstored
  have hv : (visibleOrder frames state).Nodup := List.Nodup.filter _ hord
  have hh : (hiddenOrder frames state).Nodup := List.Nodup.filter _ hord
  have hc : getCurrentOrder (reconcile frames state) =
      visibleOrder frames state ++ hiddenOrder frames state := by
    rw [getCurrentOrder, reconcile_visibleOrder, reconcile_hiddenOrder,
      dedupKeepLast_eq_self hv, dedupKeepLast_eq_self hh]
  have hhi : getHiddenIds (reconcile frames state) =
      hiddenOrder frames state := by
    rw [getHiddenIds, reconcile_hiddenOrder, dedupKeepLast_eq_self hh]
  have hsp : getSpans state (reconcile frames state) =
      (visibleOrder frames state ++ hiddenOrder frames state).map
        (fun id => (id, getSpan (spansOf state) id)) := by
    rw [getSpans, hc]
  simp only [persistState]
  rw [hc, hhi, hsp]

/-- Re-reconciling against a snapshot of a previous reconciliation's
output reproduces that output exactly; stated for any stored state whose
fields equal the snapshot fields. No duplicate-freeness is needed at this
step. -/
theorem reconcile_snapshot (frames : List CardElement)
    (state : Option DashboardState) (st2 : DashboardState)
    (ho : st2.order = visibleOrder frames state ++ hiddenOrder frames state)
    (hh : st2.hidden = hiddenOrder frames state)
    (hs : st2.spans =
      (visibleOrder frames state ++ hiddenOrder frames state).map
        (fun id => (id, getSpan (spansOf state) id))) :
    reconcile frames (some st2) = reconcile frames state := by
  have hsub : ∀ x ∈ visibleOrder frames state ++ hiddenOrder frames state,
      x ∈ defaultOrder frames := by
    intro x hx
    rcases List.mem_append.mp hx with hx | hx
    · exact (computeOrder_mem_iff frames state x).mp (List.mem_filter.mp hx).1
    · exact (computeOrder_mem_iff frames state x).mp (List.mem_filter.mp hx).1
  have hall : ∀ x ∈ defaultOrder frames,
      x ∈ visibleOrder frames state ++ hiddenOrder frames state := by
    intro x hx
    exact List.mem_append.mpr (mem_vis_or_hid frames state x
      ((computeOrder_mem_iff frames state x).mpr hx))
  have hbase2 : baseOrder frames (some st2) =
      visibleOrder frames state ++ hiddenOrder frames state := by
    have hb : baseOrder frames (some st2) =
        st2.order.filter (fun id => decide (id ∈ defaultOrder frames)) := rfl
    rw [hb, ho]
    exact List.filter_eq_self.mpr (fun a ha => by simpa using hsub a ha)
  have hord2 : computeOrder frames (some st2) =
      visibleOrder frames state ++ hiddenOrder frames state := by
    rw [computeOrder, hbase2]
    exact unshiftNew_eq_self _ _ hall
  have hhidlist : hiddenList (some st2) = hiddenOrder frames state := by
    have hb : hiddenList (some st2) = st2.hidden := rfl
    rw [hb, hh]
  have hvis2 : visibleOrder frames (some st2) = visibleOrder frames state := by
    rw [visibleOrder, hord2, hhidlist, List.filter_append]
    have h1 : (visibleOrder frames state).filter
        (fun id => !(decide (id ∈ hiddenOrder frames state))) =
        visibleOrder frames state :=
      List.filter_eq_self.mpr
        (fun a ha => by simp [visible_not_mem_hidden frames state a ha])
    have h2 : (hiddenOrder frames state).filter
        (fun id => !(decide (id ∈ hiddenOrder frames state))) = [] :=
      List.filter_eq_nil_iff.mpr (fun a ha => by simp [ha])
    rw [h1, h2, List.append_nil]
  have hhid2 : hiddenOrder frames (some st2) = hiddenOrder frames state := by
    rw [hiddenOrder, hord2, hhidlist, List.filter_append]
    have h1 : (visibleOrder frames state).filter
        (fun id => decide (id ∈ hiddenOrder frames state)) = [] :=
      List.filter_eq_nil_iff.mpr
        (fun a ha => by simp [visible_not_mem_hidden frames state a ha])
    have h2 : (hiddenOrder frames state).filter
        (fun id => decide (id ∈ hiddenOrder frames state)) =
        hiddenOrder frames state :=
      List.filter_eq_self.mpr (fun a ha => by simp [ha])
    rw [h1, h2, List.nil_append]
  have hspof : spansOf (some st2) =
      (visibleOrder frames state ++ hiddenOrder frames state).map
        (fun id => (id, getSpan (spansOf state) id)) := by
    have hb : spansOf (some st2) = st2.spans := rfl
    rw [hb, hs]
  apply effectiveLayout_ext
  · rw [reconcile_visibleOrder, reconcile_visibleOrder, hvis2]
  · rw [reconcile_hiddenOrder, reconcile_hiddenOrder, hhid2]
  · rw [reconcile_widths, reconcile_widths, hvis2, hhid2, hspof]
    exact List.map_congr_left (fun a ha => by
      rw [getSpan_tabulated
        (visibleOrder frames state ++ hiddenOrder frames state)
        (spansOf state) a ha])

/-- **C4** (corrected claim). Reconciliation idempotence and totality:
reconciliation is a deterministic total function, and — provided the
discovered cards resolve to pairwise-distinct ids and the stored order is
duplicate-free — feeding the persisted snapshot of a reconciliation's
output (full order, hidden ids, spans, as `persistOrder` reads them back
from the rendered DOM) back in as the stored state reproduces the same
EffectiveLayout; it never raises, even with a null stored state. -/
theorem reconcile_idempotent (frames : List CardElement)
    (state : Option DashboardState)
    (hdflt : (defaultOrder frames).Nodup)
    (hstored : (storedOrderOf state).Nodup) :
    reconcile frames (some (persistState frames state)) =
      reconcile frames state := by
  have hP := persistState_eq frames state hdflt hstored
  refine reconcile_snapshot frames state (persistState frames state) ?_ ?_ ?_
  · rw [hP]
  · rw [hP]
  · rw [hP]

/-- Witness for C4 (amended): two distinct cards, a stored state with a
hidden card and a custom span — the reconciliation of the persisted
snapshot equals the original reconciliation. -/
theorem reconcile_idempotent_witness :
    reconcile [⟨"a", none, "A"⟩, ⟨"b", none, "B"⟩]
        (some (persistState [⟨"a", none, "A"⟩, ⟨"b", none, "B"⟩]
          (some ⟨["b"], ["b"], [("a", 4)]⟩))) =
      reconcile [⟨"a", none, "A"⟩, ⟨"b", none, "B"⟩]
        (some ⟨["b"], ["b"], [("a", 4)]⟩) :=
  reconcile_idempotent [⟨"a", none, "A"⟩, ⟨"b", none, "B"⟩]
    (some ⟨["b"], ["b"], [("a", 4)]⟩) (by decide) (by decide)

/-- Counterexample to C4 as stated: with two colliding link-less cards and
a null stored state, the first pass computes `visibleOrder =
["bu-0", "bu-0"]`, but the DOM the snapshot is read back from holds the
moved element only once, so the second pass computes `["bu-0"]` — a
different EffectiveLayout. -/
theorem reconcile_idempotent_false :
    (reconcile [⟨"", none, "X"⟩, ⟨"", none, "Y"⟩] none).visibleOrder =
      ["bu-0", "bu-0"] ∧
    (reconcile [⟨"", none, "X"⟩, ⟨"", none, "Y"⟩]
        (some (persistState [⟨"", none, "X"⟩, ⟨"", none, "Y"⟩]
          none))).visibleOrder = ["bu-0"] ∧
    reconcile [⟨"", none, "X"⟩, ⟨"", none, "Y"⟩]
        (some (persistState [⟨"", none, "X"⟩, ⟨"", none, "Y"⟩] none)) ≠
      reconcile [⟨"", none, "X"⟩, ⟨"", none, "Y"⟩] none := by
  exact ⟨rfl, rfl, by decide⟩
